import Mathlib

/-!
Verification of the reportlet assembly core of `nireports`
(`src/nireports/assembler/reportlet.py`).

The Python source is shallowly embedded below.  Filesystem paths become
lists of components, the filesystem becomes an association list from
paths to text contents, and `Reportlet.__init__` becomes an explicit
`Reportlet.build` function returning either a build error or the
constructed reportlet together with the final filesystem and a trace of
the filesystem write operations it performed.
-/

namespace Nireports

/-- A filesystem path, as the list of its components.  `Path("/a/b/c.svg")`
becomes `⟨["a", "b", "c.svg"]⟩`. -/
structure FsPath where
  components : List String
deriving DecidableEq, Repr

/-- The final component of the path (Python `Path.name`); empty for the root. -/
def FsPath.name (p : FsPath) : String :=
  (p.components.getLast?).getD ""

/-- The parent path (Python `Path.parent`). -/
def FsPath.parent (p : FsPath) : FsPath :=
  ⟨p.components.dropLast⟩

/-- Python `str.split(".")` over the characters of a name. -/
def splitOnDot : List Char → List (List Char)
  | [] => [[]]
  | c :: rest =>
      if c = '.' then [] :: splitOnDot rest
      else match splitOnDot rest with
        | [] => [[c]]
        | g :: gs => (c :: g) :: gs

/-- Python `str.strip()`: the string with leading and trailing whitespace
removed. -/
def pyStrip (s : String) : String :=
  String.mk (((s.data.dropWhile Char.isWhitespace).reverse.dropWhile
    Char.isWhitespace).reverse)

/-- Python `PurePath.suffixes` of a file name: a name that ends with a dot has
no suffixes; otherwise drop leading dots and every dot-separated piece after
the first is a suffix, rendered with its dot. -/
def pySuffixes (name : String) : List String :=
  if name.data.getLast? = some '.' then []
  else ((splitOnDot (name.data.dropWhile (· == '.'))).drop 1).map
    (fun cs => String.mk ('.' :: cs))

/-- The accumulated extension of a path: `"".join(src.suffixes)` in the source. -/
def fullExt (p : FsPath) : String :=
  String.join (pySuffixes p.name)

/-- Python `Path.relative_to`: succeeds exactly when `base` is a leading
segment of `p`, returning the remaining components; otherwise the source
raises `ValueError`, modelled by `none`. -/
def FsPath.relative_to (p base : FsPath) : Option FsPath :=
  if base.components.isPrefixOf p.components then
    some ⟨p.components.drop base.components.length⟩
  else
    none

/-- Joining paths (Python `out_dir / anchor`). -/
def FsPath.join (p q : FsPath) : FsPath :=
  ⟨p.components ++ q.components⟩

/-- POSIX rendering of a (relative) path, as interpolated into the SVG
snippet by `str.format`. -/
def FsPath.render (p : FsPath) : String :=
  if p.components = [] then "." else String.intercalate "/" p.components

/-- The filesystem: an association list from paths to text contents.  A
lookup returns the most recently written binding. -/
abbrev Fs : Type := List (FsPath × String)

/-- Read a file's text (Python `Path.read_text`); `none` models the raised
`OSError` when the file does not exist. -/
def Fs.read (fs : Fs) (p : FsPath) : Option String :=
  (List.find? (fun e => e.1 == p) fs).map (·.2)

/-- Write a file's text. -/
def Fs.write (fs : Fs) (p : FsPath) (s : String) : Fs :=
  (p, s) :: fs

/-- How `copyfile` materialised the destination. -/
inductive CopyMethod
  | hardlink
  | contentCopy
deriving DecidableEq, Repr

/-- A filesystem write performed during construction. -/
inductive FsOp
  | mkdirParents (p : FsPath)
  | copy (src dst : FsPath) (method : CopyMethod)
deriving DecidableEq, Repr

/-- Modelled from the spec: `copyfile(src, dst, copy=True, use_hardlink=True)`
from the external `nipype.utils.filemanip` dependency (not part of this
repository's sources).  Per the spec it attempts a hardlink and falls back to
a full content copy when the filesystem refuses the link; either way, on
success the destination holds the source's content.  The environment flag
`hardlinkOk` says whether the filesystem permits the hardlink; a missing
source is a propagated error (`none`). -/
def copyfile (hardlinkOk : Bool) (fs : Fs) (src dst : FsPath) :
    Option (Fs × CopyMethod) :=
  match fs.read src with
  | none => none
  | some content =>
      some (fs.write dst content, if hardlinkOk then .hardlink else .contentCopy)

/-- Modelled from the spec: the two fixed embedding templates `SVG_SNIPPET`
from `nireports.assembler.misc` (not part of this repository's sources),
keyed by the `static` boolean — the `true` variant an image-embedding tag,
the `false` variant an object-embedding tag — each substituting the one
resolved relative path. -/
def SVG_SNIPPET (static : Bool) (anchor : String) : String :=
  if static then
    "<img class=\"svg-reportlet\" src=\"./" ++ anchor ++ "\" style=\"width: 100%\" />"
  else
    "<object class=\"svg-reportlet\" type=\"image/svg+xml\" data=\"./" ++ anchor ++ "\"></object>"

/-- A value stored in the configuration mapping. -/
inductive ConfigVal
  | str (s : String)
  | bool (b : Bool)
  | dict (d : List (String × String))
deriving DecidableEq, Repr

/-- The configuration object: a string-keyed mapping (a Python `dict`). -/
abbrev Config : Type := List (String × ConfigVal)

/-- `config.get(key)` (default `None`). -/
def Config.get (cfg : Config) (k : String) : Option ConfigVal :=
  (List.find? (fun e => e.1 == k) cfg).map (·.2)

/-- `config.get(key)` where the stored value is a string. -/
def Config.getStr (cfg : Config) (k : String) : Option String :=
  match cfg.get k with
  | some (.str s) => some s
  | _ => none

/-- `config.get(key)` where the stored value is a boolean. -/
def Config.getBool (cfg : Config) (k : String) : Option Bool :=
  match cfg.get k with
  | some (.bool b) => some b
  | _ => none

/-- `config.get(key)` where the stored value is a mapping. -/
def Config.getDict (cfg : Config) (k : String) : Option (List (String × String)) :=
  match cfg.get k with
  | some (.dict d) => some d
  | _ => none

/-- `config.get("static", True)` in the source. -/
def getStatic (cfg : Config) : Bool :=
  (cfg.getBool "static").getD true

/-- Metadata lookup in an entry's entities mapping. -/
def lookupKey (m : List (String × String)) (k : String) : Option String :=
  (List.find? (fun e => e.1 == k) m).map (·.2)

mutual

/-- Python `template.format(**m)` restricted to simple named placeholders,
over the template's character list.  `\x7b\x7b` and `\x7d\x7d` are literal
braces; `\x7bname\x7d` substitutes `m[name]`; a missing field (Python
`KeyError`) and an unbalanced brace (Python `ValueError`) are `none`. -/
def fmtChars (m : List (String × String)) : List Char → Option (List Char)
  | [] => some []
  | '{' :: '{' :: rest => (fmtChars m rest).map (fun t => '{' :: t)
  | '{' :: rest => fmtField m [] rest
  | '}' :: '}' :: rest => (fmtChars m rest).map (fun t => '}' :: t)
  | '}' :: _ => none
  | c :: rest => (fmtChars m rest).map (fun t => c :: t)

/-- Reads a replacement-field name up to the closing brace, then substitutes
its value from `m`. -/
def fmtField (m : List (String × String)) (acc : List Char) :
    List Char → Option (List Char)
  | [] => none
  | '}' :: rest =>
      match lookupKey m (String.mk acc.reverse) with
      | some v => (fmtChars m rest).map (fun t => v.data ++ t)
      | none => none
  | c :: rest => fmtField m (c :: acc) rest

end

/-- Python `template.format(**m)` on strings. -/
def pyFormat (template : String) (m : List (String × String)) : Option String :=
  (fmtChars m template.data).map String.mk

/-- A file matched by the catalog query, with its path and its structured
metadata (`bidsfile.entities`). -/
structure CatalogEntry where
  path : FsPath
  entities : List (String × String)

/-- The external BIDS layout: its root directory and its opaque query
operation `layout.get(**bidsquery)`. -/
structure Layout where
  root : FsPath
  get : List (String × String) → List CatalogEntry

/-- Errors raised during construction. -/
inductive BuildError
  | configurationError
  | templateError (template : String)
  | ioError (p : FsPath)
  | valueError (p base : FsPath)
deriving DecidableEq, Repr

/-- Python tuple ordering on `(key, value)` string pairs, as used by
`sorted(bidsquery.items())`. -/
def pairLt (a b : String × String) : Prop :=
  a.1 < b.1 ∨ (a.1 = b.1 ∧ a.2 ≤ b.2)

instance : DecidableRel pairLt := fun a b =>
  inferInstanceAs (Decidable (a.1 < b.1 ∨ (a.1 = b.1 ∧ a.2 ≤ b.2)))

/-- `"_".join("%s-%s" % i for i in sorted(bidsquery.items()))` in the source. -/
def deriveName (q : List (String × String)) : String :=
  String.intercalate "_"
    ((List.insertionSort pairLt q).map (fun i => i.1 ++ "-" ++ i.2))

/-- The assembled reportlet entity.  `name` is an `Option` because the
source assigns `self.name` only inside the BIDS-query branch. -/
structure Reportlet where
  title : Option String
  subtitle : Option String
  description : Option String
  name : Option String
  components : List (String × Option String)
deriving DecidableEq, Repr

/-- `len(self.components) == 0` in the source. -/
def Reportlet.is_empty (r : Reportlet) : Bool :=
  r.components.length == 0

/-- The `.html` branch of the per-file loop: `src.read_text().strip()`,
kept as a component only when non-empty (the final `if contents:` check). -/
def htmlStep (cfg : Config) (fs : Fs) (e : CatalogEntry) :
    Except BuildError (Option (String × Option String) × Fs × List FsOp) :=
  match fs.read e.path with
  | none => .error (.ioError e.path)
  | some txt =>
      let contents := pyStrip txt
      .ok (if contents ≠ "" then some (contents, cfg.getStr "caption") else none, fs, [])

/-- The caption handling of the `.svg` branch: `desc_text` is formatted
against the entry's entities only when it is truthy (present and
non-empty); a `KeyError`/`ValueError` from `str.format` propagates. -/
def captionStep (cfg : Config) (e : CatalogEntry) :
    Except BuildError (Option String) :=
  match cfg.getStr "caption" with
  | some t =>
      if t ≠ "" then
        match pyFormat t e.entities with
        | some r => .ok (some r)
        | none => .error (.templateError t)
      else .ok (some t)
  | none => .ok none

/-- The `.svg` branch of the per-file loop: caption formatting, then path
reconciliation — `src.relative_to(out_dir)` when the source already lives
under the output directory, otherwise relocation under the output tree at
the path relative to the parent of the layout root (with `mkdir -p` of the
destination's parent and a hardlink-preferring copy) — and finally the
snippet produced from the `static`-keyed template. -/
def svgStep (hardlinkOk : Bool) (layout : Layout) (out_dir : FsPath)
    (cfg : Config) (fs : Fs) (e : CatalogEntry) :
    Except BuildError (Option (String × Option String) × Fs × List FsOp) :=
  let src := e.path
  match captionStep cfg e with
  | .error err => .error err
  | .ok desc2 =>
      match src.relative_to out_dir with
      | some anchor =>
          let contents := SVG_SNIPPET (getStatic cfg) anchor.render
          .ok (if contents ≠ "" then some (contents, desc2) else none, fs, [])
      | none =>
          match src.relative_to layout.root.parent with
          | none => .error (.valueError src layout.root.parent)
          | some anchor =>
              let dst := out_dir.join anchor
              match copyfile hardlinkOk fs src dst with
              | none => .error (.ioError src)
              | some (fs2, method) =>
                  let contents := SVG_SNIPPET (getStatic cfg) anchor.render
                  .ok (if contents ≠ "" then some (contents, desc2) else none,
                       fs2,
                       [FsOp.mkdirParents dst.parent, FsOp.copy src dst method])

/-- The body of the per-file loop of `Reportlet.__init__` for one matched
entry: classifies the entry by its accumulated suffix and dispatches to the
fragment or vector-image handler; any other suffix contributes nothing. -/
def processEntry (hardlinkOk : Bool) (layout : Layout) (out_dir : FsPath)
    (cfg : Config) (fs : Fs) (e : CatalogEntry) :
    Except BuildError (Option (String × Option String) × Fs × List FsOp) :=
  let ext := fullExt e.path
  if ext = ".html" then htmlStep cfg fs e
  else if ext = ".svg" then svgStep hardlinkOk layout out_dir cfg fs e
  else .ok (none, fs, [])

/-- The per-file loop of `Reportlet.__init__` over the matched files, in
catalog result order, threading the filesystem and accumulating the
component list and the trace of writes. -/
def buildComponents (hardlinkOk : Bool) (layout : Layout) (out_dir : FsPath)
    (cfg : Config) :
    Fs → List CatalogEntry →
      Except BuildError (List (String × Option String) × Fs × List FsOp)
  | fs, [] => .ok ([], fs, [])
  | fs, e :: rest =>
      match processEntry hardlinkOk layout out_dir cfg fs e with
      | .error err => .error err
      | .ok (comp, fs2, ops) =>
          match buildComponents hardlinkOk layout out_dir cfg fs2 rest with
          | .error err => .error err
          | .ok (comps, fs3, ops2) => .ok (comp.toList ++ comps, fs3, ops ++ ops2)

/-- `Reportlet.__init__(layout, out_dir, config)`: rejects a falsy config
(absent, or an empty mapping), copies the header fields, and — only when the
`bids` query mapping is present and non-empty — derives the name and builds
the component list from the catalog's matches. -/
def Reportlet.build (hardlinkOk : Bool) (layout : Layout) (out_dir : FsPath)
    (config : Option Config) (fs : Fs) :
    Except BuildError (Reportlet × Fs × List FsOp) :=
  match config with
  | none => .error .configurationError
  | some [] => .error .configurationError
  | some cfg =>
      let bidsquery := (cfg.getDict "bids").getD []
      if bidsquery = [] then
        .ok ({ title := cfg.getStr "title", subtitle := cfg.getStr "subtitle",
               description := cfg.getStr "description",
               name := none, components := [] }, fs, [])
      else
        let nm := (cfg.getStr "name").getD (deriveName bidsquery)
        let files := layout.get bidsquery
        match buildComponents hardlinkOk layout out_dir cfg fs files with
        | .error err => .error err
        | .ok (comps, fs2, ops) =>
            .ok ({ title := cfg.getStr "title", subtitle := cfg.getStr "subtitle",
                   description := cfg.getStr "description",
                   name := some nm, components := comps }, fs2, ops)

instance : IsTrans (String × String) pairLt where
  trans a b c hab hbc := by
    rcases hab with h1 | ⟨e1, l1⟩
    · rcases hbc with h2 | ⟨e2, l2⟩
      · exact Or.inl (lt_trans h1 h2)
      · exact Or.inl (e2 ▸ h1)
    · rcases hbc with h2 | ⟨e2, l2⟩
      · exact Or.inl (e1 ▸ h2)
      · exact Or.inr ⟨e1.trans e2, le_trans l1 l2⟩

instance : IsTotal (String × String) pairLt where
  total a b := by
    rcases lt_trichotomy a.1 b.1 with h | h | h
    · exact Or.inl (Or.inl h)
    · rcases le_total a.2 b.2 with h2 | h2
      · exact Or.inl (Or.inr ⟨h, h2⟩)
      · exact Or.inr (Or.inr ⟨h.symm, h2⟩)
    · exact Or.inr (Or.inl h)

instance : IsAntisymm (String × String) pairLt where
  antisymm a b hab hba := by
    rcases hab with h1 | ⟨e1, l1⟩
    · rcases hba with h2 | ⟨e2, l2⟩
      · exact absurd (lt_trans h1 h2) (lt_irrefl _)
      · exact absurd h1 (e2 ▸ lt_irrefl _)
    · rcases hba with h2 | ⟨e2, l2⟩
      · exact absurd h2 (e1 ▸ lt_irrefl _)
      · exact Prod.ext e1 (le_antisymm l1 l2)

/-- The two snippet templates always produce non-empty markup, so the final
`if contents:` check keeps every vector-image component. -/
theorem SVG_SNIPPET_ne_empty (b : Bool) (a : String) : SVG_SNIPPET b a ≠ "" := by
  intro h
  have h2 := congrArg String.data h
  cases b <;> simp [SVG_SNIPPET, String.data_append] at h2

/-- Sorting before joining makes the derived name invariant under
reordering of the query's key/value pairs. -/
theorem deriveName_perm {q1 q2 : List (String × String)} (h : q1.Perm q2) :
    deriveName q1 = deriveName q2 := by
  unfold deriveName
  congr 1
  congr 1
  exact List.eq_of_perm_of_sorted
    ((List.perm_insertionSort pairLt q1).trans
      (h.trans (List.perm_insertionSort pairLt q2).symm))
    (List.sorted_insertionSort pairLt q1) (List.sorted_insertionSort pairLt q2)

/-- C8: constructing a Reportlet with no configuration object supplied
raises a fatal construction-time error; no Reportlet is produced. -/
theorem build_missing_config (hl : Bool) (layout : Layout) (out : FsPath) (fs : Fs) :
    Reportlet.build hl layout out none fs = .error .configurationError := rfl

/-- C9: passing an empty mapping as the config raises the same
construction-time error as passing no config at all. -/
theorem build_empty_config (hl : Bool) (layout : Layout) (out : FsPath) (fs : Fs) :
    Reportlet.build hl layout out (some []) fs = .error .configurationError
      ∧ Reportlet.build hl layout out (some []) fs =
          Reportlet.build hl layout out none fs :=
  ⟨rfl, rfl⟩

/-- C10: for every truthy configuration whose query mapping is absent or
empty, construction succeeds with an empty component list, and the name
attribute is never assigned — even when the configuration supplies an
explicit name override. -/
theorem build_no_query_no_name (hl : Bool) (layout : Layout) (out : FsPath) (fs : Fs)
    (cfg : Config) (hne : cfg ≠ [])
    (hq : (cfg.getDict "bids").getD [] = []) :
    Reportlet.build hl layout out (some cfg) fs =
      .ok ({ title := cfg.getStr "title", subtitle := cfg.getStr "subtitle",
             description := cfg.getStr "description",
             name := none, components := [] }, fs, []) := by
  cases cfg with
  | nil => exact absurd rfl hne
  | cons c cs =>
    rw [Reportlet.build]
    · simp [hq]
    · simp

/-- Witness for C10: a config with a title and an explicit name override but
no query still builds, with no name assigned and no components. -/
theorem build_no_query_no_name_witness :
    Reportlet.build true ⟨⟨[]⟩, fun _ => []⟩ ⟨["out"]⟩
        (some [("name", ConfigVal.str "X"), ("title", ConfigVal.str "T")]) [] =
      .ok ({ title := some "T", subtitle := none, description := none,
             name := none, components := [] }, [], []) :=
  build_no_query_no_name true ⟨⟨[]⟩, fun _ => []⟩ ⟨["out"]⟩ []
    [("name", ConfigVal.str "X"), ("title", ConfigVal.str "T")] (by decide) rfl

/-- C7: a query matching zero entries still builds successfully, with an
empty component list, a true emptiness check, and no filesystem writes; in
general `is_empty` is true exactly when the component list is empty. -/
theorem empty_query_match (hl : Bool) (layout : Layout) (out : FsPath) (fs : Fs)
    (cfg : Config) (q : List (String × String))
    (hq : (cfg.getDict "bids").getD [] = q) (hne : q ≠ []) (hfiles : layout.get q = []) :
    (Reportlet.build hl layout out (some cfg) fs =
       .ok ({ title := cfg.getStr "title", subtitle := cfg.getStr "subtitle",
              description := cfg.getStr "description",
              name := some ((cfg.getStr "name").getD (deriveName q)),
              components := [] }, fs, []))
    ∧ (∀ r : Reportlet, r.is_empty = true ↔ r.components = []) := by
  constructor
  · cases cfg with
    | nil =>
      simp [Config.getDict, Config.get] at hq
      exact absurd hq (by exact hne)
    | cons c cs =>
      rw [Reportlet.build]
      · simp [hq, hne, hfiles, buildComponents]
      · simp
  · intro r
    simp [Reportlet.is_empty, List.length_eq_zero]

/-- Witness for C7: a concrete query with no matches yields an ok result
with no components, no writes, and an untouched filesystem. -/
theorem empty_query_match_witness :
    Reportlet.build true ⟨⟨["w"]⟩, fun _ => []⟩ ⟨["out"]⟩
        (some [("bids", ConfigVal.dict [("a", "b")])]) [] =
      .ok ({ title := none, subtitle := none, description := none,
             name := some "a-b", components := [] }, [], []) :=
  (empty_query_match true ⟨⟨["w"]⟩, fun _ => []⟩ ⟨["out"]⟩ []
      [("bids", ConfigVal.dict [("a", "b")])] [("a", "b")] rfl (by decide) rfl).1

/-- C3: with a non-empty query and no explicit name, the reportlet's name is
the query's key/value pairs sorted and joined as key-value with underscores;
the derivation is order-independent and applies even on a zero-file match. -/
theorem query_derived_name (hl : Bool) (layout : Layout) (out : FsPath) (fs : Fs)
    (cfg : Config) (q : List (String × String))
    (hq : cfg.getDict "bids" = some q) (hne : q ≠ []) (hname : cfg.getStr "name" = none) :
    (∀ r fs2 ops, Reportlet.build hl layout out (some cfg) fs = .ok (r, fs2, ops) →
        r.name = some (deriveName q))
    ∧ (∀ q2 : List (String × String), q.Perm q2 → deriveName q = deriveName q2)
    ∧ (layout.get q = [] →
        Reportlet.build hl layout out (some cfg) fs =
          .ok ({ title := cfg.getStr "title", subtitle := cfg.getStr "subtitle",
                 description := cfg.getStr "description",
                 name := some (deriveName q), components := [] }, fs, [])) := by
  refine ⟨?_, fun q2 hp => deriveName_perm hp, ?_⟩
  · intro r fs2 ops h
    cases cfg with
    | nil => simp [Config.getDict, Config.get] at hq
    | cons c cs =>
      rw [Reportlet.build] at h
      case x => simp
      simp [hq, hne, hname] at h
      cases hbc : buildComponents hl layout out (c :: cs) fs (layout.get q) with
      | error err => rw [hbc] at h; simp at h
      | ok val =>
        rw [hbc] at h
        simp at h
        rw [← h.1]
  · intro hfiles
    cases cfg with
    | nil => simp [Config.getDict, Config.get] at hq
    | cons c cs =>
      rw [Reportlet.build]
      · simp [hq, hne, hname, hfiles, buildComponents]
      · simp

/-- Witness for C3: two orderings of the same query pairs derive the same
name. -/
theorem query_derived_name_witness :
    deriveName [("desc", "reconall"), ("datatype", "figures")] =
      deriveName [("datatype", "figures"), ("desc", "reconall")] :=
  (query_derived_name true ⟨⟨[]⟩, fun _ => []⟩ ⟨[]⟩ []
      [("bids", ConfigVal.dict [("desc", "reconall"), ("datatype", "figures")])]
      [("desc", "reconall"), ("datatype", "figures")]
      rfl (by decide) rfl).2.1 _ (by decide)


/-- C4: the content type is derived from the full accumulated suffix of the
entry's path — `.html` dispatches to the fragment handler, `.svg` to the
vector-image handler (whose produced content is always a snippet from the
SVG template), and any other suffix contributes no component and raises no
error. -/
theorem suffix_classification (hl : Bool) (layout : Layout) (out : FsPath)
    (cfg : Config) (fs : Fs) (e : CatalogEntry) :
    (fullExt e.path ≠ ".html" → fullExt e.path ≠ ".svg" →
        processEntry hl layout out cfg fs e = .ok (none, fs, []))
    ∧ (fullExt e.path = ".html" →
        processEntry hl layout out cfg fs e = htmlStep cfg fs e)
    ∧ (fullExt e.path = ".svg" →
        processEntry hl layout out cfg fs e = svgStep hl layout out cfg fs e
        ∧ ∀ c d fs2 ops, svgStep hl layout out cfg fs e = .ok (some (c, d), fs2, ops) →
            ∃ anchor, c = SVG_SNIPPET (getStatic cfg) anchor) := by
  refine ⟨?_, ?_, ?_⟩
  · intro h1 h2
    simp [processEntry, h1, h2]
  · intro h
    simp [processEntry, h]
  · intro h
    refine ⟨by simp [processEntry, h], ?_⟩
    intro c d fs2 ops hsvg
    rw [svgStep] at hsvg
    cases hcap : captionStep cfg e with
    | error err => rw [hcap] at hsvg; simp at hsvg
    | ok desc2 =>
      rw [hcap] at hsvg
      simp at hsvg
      cases hrel : e.path.relative_to out with
      | some anchor =>
        rw [hrel] at hsvg
        simp at hsvg
        exact ⟨anchor.render, hsvg.1.2.1.symm⟩
      | none =>
        rw [hrel] at hsvg
        simp at hsvg
        cases hrel2 : e.path.relative_to layout.root.parent with
        | none => rw [hrel2] at hsvg; simp at hsvg
        | some anchor =>
          rw [hrel2] at hsvg
          simp at hsvg
          cases hcp : copyfile hl fs e.path (out.join anchor) with
          | none => rw [hcp] at hsvg; simp at hsvg
          | some val =>
            rw [hcp] at hsvg
            simp at hsvg
            exact ⟨anchor.render, hsvg.1.2.1.symm⟩

/-- Witness for C4: a `.png` entry is silently skipped — no component, no
error, no writes. -/
theorem suffix_classification_witness :
    processEntry true ⟨⟨["w"]⟩, fun _ => []⟩ ⟨["out"]⟩ [] []
        ⟨⟨["w", "fig.png"]⟩, []⟩ = .ok (none, [], []) :=
  (suffix_classification true ⟨⟨["w"]⟩, fun _ => []⟩ ⟨["out"]⟩ [] []
      ⟨⟨["w", "fig.png"]⟩, []⟩).1 (by decide) (by decide)

/-- Counterexample to C5 as stated: a fragment (`.html`) entry whose file
text is only whitespace yields no component at all — the trimmed text does
not appear as any component's content string. -/
theorem fragment_trim_counterexample :
    (Reportlet.build true ⟨⟨["w"]⟩, fun _ => [⟨⟨["w", "f.html"]⟩, []⟩]⟩ ⟨["out"]⟩
        (some [("bids", ConfigVal.dict [("desc", "x")])])
        [(⟨["w", "f.html"]⟩, " \n ")]).map (fun x => x.1.components) = .ok [] := rfl

/-- C5 (amended): for every fragment (`.html`) entry whose stripped text is
non-empty, the component's content is exactly the file text with
surrounding whitespace trimmed, with no other transformation; an entry
whose text strips to empty contributes no component. -/
theorem fragment_trim_roundtrip (hl : Bool) (layout : Layout) (out : FsPath)
    (cfg : Config) (fs : Fs) (e : CatalogEntry) (txt : String)
    (hext : fullExt e.path = ".html") (hread : fs.read e.path = some txt) :
    (pyStrip txt ≠ "" →
        processEntry hl layout out cfg fs e =
          .ok (some (pyStrip txt, cfg.getStr "caption"), fs, []))
    ∧ (pyStrip txt = "" →
        processEntry hl layout out cfg fs e = .ok (none, fs, [])) := by
  constructor
  · intro h
    simp [processEntry, hext, htmlStep, hread, h]
  · intro h
    simp [processEntry, hext, htmlStep, hread, h]

/-- Witness for C5 (amended): a concrete fragment file round-trips with its
surrounding whitespace trimmed. -/
theorem fragment_trim_roundtrip_witness :
    processEntry true ⟨⟨["w"]⟩, fun _ => []⟩ ⟨["out"]⟩ []
        [(⟨["w", "f.html"]⟩, "  <h3>hi</h3> ")] ⟨⟨["w", "f.html"]⟩, []⟩ =
      .ok (some ("<h3>hi</h3>", none), [(⟨["w", "f.html"]⟩, "  <h3>hi</h3> ")], []) :=
  (fragment_trim_roundtrip true ⟨⟨["w"]⟩, fun _ => []⟩ ⟨["out"]⟩ []
      [(⟨["w", "f.html"]⟩, "  <h3>hi</h3> ")] ⟨⟨["w", "f.html"]⟩, []⟩
      "  <h3>hi</h3> " rfl rfl).1 (by decide)


/-- Counterexample to C1 as stated: a fragment (`.html`) entry contributes
a component although the caption template references a field present in the
entry's metadata — the caption is attached unformatted (the placeholder is
left literal) and no error is raised, instead of being substituted to
"desc X" as `pyFormat` would. -/
theorem caption_literal_counterexample :
    (Reportlet.build true ⟨⟨["w"]⟩, fun _ => [⟨⟨["w", "f.html"]⟩, [("field", "X")]⟩]⟩
        ⟨["out"]⟩
        (some [("bids", ConfigVal.dict [("k", "v")]),
               ("caption", ConfigVal.str "desc {field}")])
        [(⟨["w", "f.html"]⟩, "<h3>hi</h3>")]).map (fun x => x.1.components)
      = .ok [("<h3>hi</h3>", some "desc {field}")]
    ∧ pyFormat "desc {field}" [("field", "X")] = some "desc X" := ⟨rfl, rfl⟩

/-- C1 (amended): caption substitution applies only to vector-image
(`.svg`) entries: for those, a nonempty template is formatted against the
entry's metadata — a missing field raises a propagated template error, and
any contributed component carries the fully substituted caption; fragment
(`.html`) entries receive the template unformatted. -/
theorem caption_formatting (hl : Bool) (layout : Layout) (out : FsPath)
    (cfg : Config) (fs : Fs) (e : CatalogEntry) (t : String)
    (hcap : cfg.getStr "caption" = some t) (ht : t ≠ "") :
    (fullExt e.path = ".svg" → pyFormat t e.entities = none →
        processEntry hl layout out cfg fs e = .error (.templateError t))
    ∧ (fullExt e.path = ".svg" → ∀ res, pyFormat t e.entities = some res →
        ∀ comp fs2 ops, processEntry hl layout out cfg fs e = .ok (comp, fs2, ops) →
          ∀ c d, comp = some (c, d) → d = some res)
    ∧ (fullExt e.path = ".html" → ∀ txt, fs.read e.path = some txt → pyStrip txt ≠ "" →
        processEntry hl layout out cfg fs e =
          .ok (some (pyStrip txt, some t), fs, [])) := by
  refine ⟨?_, ?_, ?_⟩
  · intro hext hfmt
    simp [processEntry, hext, svgStep, captionStep, hcap, ht, hfmt]
  · intro hext res hfmt comp fs2 ops h c d hcomp
    subst hcomp
    simp only [processEntry, hext] at h
    norm_num at h
    rw [svgStep] at h
    have hcs : captionStep cfg e = .ok (some res) := by
      simp [captionStep, hcap, ht, hfmt]
    rw [hcs] at h
    simp at h
    cases hrel : e.path.relative_to out with
    | some anchor =>
      rw [hrel] at h
      simp at h
      exact h.1.2.2.symm
    | none =>
      rw [hrel] at h
      simp at h
      cases hrel2 : e.path.relative_to layout.root.parent with
      | none => rw [hrel2] at h; simp at h
      | some anchor =>
        rw [hrel2] at h
        simp at h
        cases hcp : copyfile hl fs e.path (out.join anchor) with
        | none => rw [hcp] at h; simp at h
        | some val =>
          rw [hcp] at h
          simp at h
          exact h.1.2.2.symm
  · intro hext txt hread hne
    simp [processEntry, hext, htmlStep, hread, hne, hcap]

/-- Witness for C1 (amended): a vector-image entry whose template
references a field absent from its metadata raises the template error. -/
theorem caption_formatting_witness :
    processEntry true ⟨⟨["w"]⟩, fun _ => []⟩ ⟨["out"]⟩
        [("caption", ConfigVal.str "desc {field}")] [] ⟨⟨["w", "fig.svg"]⟩, []⟩ =
      .error (.templateError "desc {field}") :=
  (caption_formatting true ⟨⟨["w"]⟩, fun _ => []⟩ ⟨["out"]⟩
      [("caption", ConfigVal.str "desc {field}")] [] ⟨⟨["w", "fig.svg"]⟩, []⟩
      "desc {field}" rfl (by decide)).1 rfl rfl


/-- Reading back a just-written file returns the written content. -/
theorem read_write_self (fs : Fs) (p : FsPath) (s : String) :
    (fs.write p s).read p = some s := by
  simp [Fs.read, Fs.write]

/-- C2: for a vector-image entry under the output directory the anchor is
the path relative to the output directory and no write is performed;
otherwise the anchor is relative to the parent of the catalog root, the
destination's parents are created, the file is copied to
`out_dir/anchor` — by hardlink when the filesystem permits it and by
content copy otherwise — the file then exists at that destination with the
source's content, and the snippet references that same anchor. -/
theorem svg_path_reconciliation (hl : Bool) (layout : Layout) (out : FsPath)
    (cfg : Config) (fs : Fs) (e : CatalogEntry) (d : Option String)
    (hext : fullExt e.path = ".svg") (hdesc : captionStep cfg e = .ok d) :
    (∀ anchor, e.path.relative_to out = some anchor →
        processEntry hl layout out cfg fs e =
          .ok (some (SVG_SNIPPET (getStatic cfg) anchor.render, d), fs, []))
    ∧ (e.path.relative_to out = none →
        ∀ anchor, e.path.relative_to layout.root.parent = some anchor →
        ∀ content, fs.read e.path = some content →
          processEntry hl layout out cfg fs e =
            .ok (some (SVG_SNIPPET (getStatic cfg) anchor.render, d),
                 fs.write (out.join anchor) content,
                 [FsOp.mkdirParents (out.join anchor).parent,
                  FsOp.copy e.path (out.join anchor)
                    (if hl then .hardlink else .contentCopy)])
            ∧ (fs.write (out.join anchor) content).read (out.join anchor) =
                some content) := by
  constructor
  · intro anchor hrel
    simp [processEntry, hext, svgStep, hdesc, hrel, SVG_SNIPPET_ne_empty]
  · intro hrel anchor hrel2 content hread
    refine ⟨?_, read_write_self fs (out.join anchor) content⟩
    simp [processEntry, hext, svgStep, hdesc, hrel, hrel2, copyfile, hread,
      SVG_SNIPPET_ne_empty]

/-- Witness for C2: a concrete out-of-tree SVG is copied (hardlink) to the
output tree and the snippet references the same relative path. -/
theorem svg_path_reconciliation_witness :
    processEntry true
        ⟨⟨["work", "reportlets", "nireports"]⟩, fun _ => []⟩ ⟨["out"]⟩ []
        [(⟨["work", "reportlets", "nireports", "fig.svg"]⟩, "SVG")]
        ⟨⟨["work", "reportlets", "nireports", "fig.svg"]⟩, []⟩ =
      .ok (some (SVG_SNIPPET true "nireports/fig.svg", none),
           (⟨["out", "nireports", "fig.svg"]⟩,
             "SVG") :: [(⟨["work", "reportlets", "nireports", "fig.svg"]⟩, "SVG")],
           [FsOp.mkdirParents ⟨["out", "nireports"]⟩,
            FsOp.copy ⟨["work", "reportlets", "nireports", "fig.svg"]⟩
              ⟨["out", "nireports", "fig.svg"]⟩ CopyMethod.hardlink]) :=
  ((svg_path_reconciliation true
      ⟨⟨["work", "reportlets", "nireports"]⟩, fun _ => []⟩ ⟨["out"]⟩ []
      [(⟨["work", "reportlets", "nireports", "fig.svg"]⟩, "SVG")]
      ⟨⟨["work", "reportlets", "nireports", "fig.svg"]⟩, []⟩ none
      rfl rfl).2 rfl ⟨["nireports", "fig.svg"]⟩ rfl "SVG" rfl).1


/-- An entry whose accumulated suffix is `.svg` is handled by the
vector-image branch. -/
theorem processEntry_svg (hl : Bool) (layout : Layout) (out : FsPath)
    (cfg : Config) (fs : Fs) (e : CatalogEntry) (hext : fullExt e.path = ".svg") :
    processEntry hl layout out cfg fs e = svgStep hl layout out cfg fs e := by
  simp [processEntry, hext]

/-- A `static` key at the front of the config determines the snippet
variant. -/
theorem getStatic_cons (b : Bool) (cfg : Config) :
    getStatic (("static", ConfigVal.bool b) :: cfg) = b := by
  simp [getStatic, Config.getBool, Config.get]

/-- The caption step ignores the `static` key. -/
theorem captionStep_static_cons (v : ConfigVal) (cfg : Config) (e : CatalogEntry) :
    captionStep (("static", v) :: cfg) e = captionStep cfg e := by
  simp [captionStep, Config.getStr, Config.get]

/-- C6: on an otherwise identical vector-image entry, `static=true` versus
`static=false` produce components from the two fixed boolean-keyed
templates — the image-embedding tag versus the object-embedding tag — with
the identical referenced relative path and identical caption, filesystem
and writes; an absent `static` key defaults to the image variant. -/
theorem static_snippet_variants (hl : Bool) (layout : Layout) (out : FsPath)
    (cfg : Config) (fs : Fs) (e : CatalogEntry)
    (comp : String × Option String) (fs2 : Fs) (ops : List FsOp)
    (hext : fullExt e.path = ".svg")
    (hT : processEntry hl layout out (("static", ConfigVal.bool true) :: cfg) fs e =
        .ok (some comp, fs2, ops)) :
    ∃ a d, comp = (SVG_SNIPPET true a, d)
      ∧ processEntry hl layout out (("static", ConfigVal.bool false) :: cfg) fs e =
          .ok (some (SVG_SNIPPET false a, d), fs2, ops)
      ∧ (∃ rest, SVG_SNIPPET true a = "<img" ++ rest)
      ∧ (∃ rest, SVG_SNIPPET false a = "<object" ++ rest)
      ∧ (∀ cfg2 : Config, cfg2.getBool "static" = none → getStatic cfg2 = true) := by
  have himg : ∀ a : String, ∃ rest, SVG_SNIPPET true a = "<img" ++ rest := by
    intro a
    refine ⟨" class=\"svg-reportlet\" src=\"./" ++
      (a ++ "\" style=\"width: 100%\" />"), ?_⟩
    rw [SVG_SNIPPET, if_pos rfl, ← String.append_assoc]
    rfl
  have hobj : ∀ a : String, ∃ rest, SVG_SNIPPET false a = "<object" ++ rest := by
    intro a
    refine ⟨" class=\"svg-reportlet\" type=\"image/svg+xml\" data=\"./" ++
      (a ++ "\"></object>"), ?_⟩
    rw [SVG_SNIPPET, if_neg (by simp), ← String.append_assoc]
    rfl
  have hdflt : ∀ cfg2 : Config, cfg2.getBool "static" = none → getStatic cfg2 = true := by
    intro cfg2 h
    simp [getStatic, h]
  rw [processEntry_svg hl layout out _ fs e hext, svgStep,
    captionStep_static_cons] at hT
  cases hcs : captionStep cfg e with
  | error err =>
    rw [hcs] at hT
    simp at hT
  | ok desc2 =>
    rw [hcs] at hT
    simp [getStatic_cons, SVG_SNIPPET_ne_empty] at hT
    cases hrel : e.path.relative_to out with
    | some anchor =>
      rw [hrel] at hT
      simp [SVG_SNIPPET_ne_empty] at hT
      refine ⟨anchor.render, desc2, ?_, ?_, himg _, hobj _, hdflt⟩
      · exact hT.1.symm
      · rw [processEntry_svg hl layout out _ fs e hext, svgStep,
          captionStep_static_cons, hcs]
        simp [hrel, getStatic_cons, SVG_SNIPPET_ne_empty, hT.2.1, hT.2.2]
    | none =>
      rw [hrel] at hT
      simp only [SVG_SNIPPET_ne_empty] at hT
      cases hrel2 : e.path.relative_to layout.root.parent with
      | none => rw [hrel2] at hT; simp at hT
      | some anchor =>
        rw [hrel2] at hT
        simp only [SVG_SNIPPET_ne_empty] at hT
        cases hcp : copyfile hl fs e.path (out.join anchor) with
        | none => rw [hcp] at hT; simp at hT
        | some val =>
          rw [hcp] at hT
          simp [SVG_SNIPPET_ne_empty] at hT
          refine ⟨anchor.render, desc2, ?_, ?_, himg _, hobj _, hdflt⟩
          · exact hT.1.symm
          · rw [processEntry_svg hl layout out _ fs e hext, svgStep,
              captionStep_static_cons, hcs]
            simp [hrel, hrel2, hcp, getStatic_cons, SVG_SNIPPET_ne_empty,
              hT.2.1, hT.2.2]

/-- Witness for C6: a concrete in-tree SVG built with `static=true` pairs
with the `static=false` build on the same anchor. -/
theorem static_snippet_variants_witness :
    ∃ a d, (SVG_SNIPPET true "fig.svg", (none : Option String)) = (SVG_SNIPPET true a, d)
      ∧ processEntry true ⟨⟨["w"]⟩, fun _ => []⟩ ⟨["out"]⟩
          [("static", ConfigVal.bool false)] [] ⟨⟨["out", "fig.svg"]⟩, []⟩ =
          .ok (some (SVG_SNIPPET false a, d), [], [])
      ∧ (∃ rest, SVG_SNIPPET true a = "<img" ++ rest)
      ∧ (∃ rest, SVG_SNIPPET false a = "<object" ++ rest)
      ∧ (∀ cfg2 : Config, cfg2.getBool "static" = none → getStatic cfg2 = true) :=
  static_snippet_variants true ⟨⟨["w"]⟩, fun _ => []⟩ ⟨["out"]⟩ [] []
    ⟨⟨["out", "fig.svg"]⟩, []⟩ (SVG_SNIPPET true "fig.svg", none) [] [] rfl rfl

end Nireports
